import Mathlib

/-!
Shallow embedding of `src/main.py` (Product Progress Tracker).

Conventions of the embedding:
* Python / pandas floating point values are modelled by `PVal`: an exact
  rational together with explicit `nan` / `inf` / `ninf` constructors;
  comparisons follow IEEE semantics (every comparison with `nan` is false).
* A pandas cell is a `Cell` (string, numeric value, or boolean); a DataFrame
  row is an ordered association list from column name to `Cell`, and a
  DataFrame is its list of rows (plus, where needed, its column header list).
* Python exceptions are modelled with `Except String`.
* Streamlit display calls are side effects with no bearing on state and are
  not modelled; values handed to them (warning rows, warning messages) are
  returned explicitly instead.
-/

set_option autoImplicit false

namespace DBCheck

/-- A Python float: exact rational, or one of the IEEE special values. -/
inductive PVal where
  | nan
  | inf
  | ninf
  | val (q : ℚ)
deriving DecidableEq, Repr

/-- IEEE strict less-than on modelled floats: any comparison involving
`nan` is false, `-inf` is below everything else, `inf` above. -/
def pvalLt : PVal → PVal → Bool
  | .nan, _ => false
  | _, .nan => false
  | .ninf, .ninf => false
  | .ninf, _ => true
  | _, .ninf => false
  | .inf, _ => false
  | _, .inf => true
  | .val p, .val q => decide (p < q)

/-- One pandas cell: textual, numeric, or boolean. -/
inductive Cell where
  | str (s : String)
  | num (v : PVal)
  | bool (b : Bool)
deriving DecidableEq, Repr

/-- A DataFrame row: ordered mapping from column name to cell. -/
abbrev Row : Type := List (String × Cell)

deriving instance DecidableEq for Except

/-- First value stored under column `c`, if any. -/
def lookupCol : Row → String → Option Cell
  | [], _ => none
  | (c, v) :: t, c' => if c = c' then some v else lookupCol t c'

/-- Cell of row `r` at column `c`; a column that is absent from a pandas
row whose frame has the column reads as NaN. -/
def getCol (r : Row) (c : String) : Cell :=
  (lookupCol r c).getD (.num .nan)

/-- Replace the value under every binding of column `c`. -/
def overwriteCol : Row → String → Cell → Row
  | [], _, _ => []
  | (a, b) :: t, c, v =>
    if a = c then (c, v) :: overwriteCol t c v else (a, b) :: overwriteCol t c v

/-- `r[c] = v`: overwrite column `c` where present, append it otherwise
(pandas assignment to a row / `.loc` cell). -/
def setCol (r : Row) (c : String) (v : Cell) : Row :=
  if (lookupCol r c).isSome then overwriteCol r c v else r ++ [(c, v)]

/-- `df.drop(columns=[c])` on one row. -/
def dropCol : Row → String → Row
  | [], _ => []
  | (a, b) :: t, c => if a = c then dropCol t c else (a, b) :: dropCol t c

/-- Numeric value of a digit string (most significant first). -/
def natOfDigits (l : List Char) : ℕ :=
  l.foldl (fun a c => 10 * a + (c.toNat - 48)) 0

/-- Full match of the code's regular expression `^(\d+\.?\d*)%?$`
(main.py line 29) against a character list, returning the value of
group 1 when it matches: digits, an optional dot, optional further
digits, then an optional percent sign, then end of string. -/
def reMatchChars (cs : List Char) : Option ℚ :=
  let d1 := cs.takeWhile Char.isDigit
  let r1 := cs.dropWhile Char.isDigit
  if d1 = [] then none
  else
    let fr : List Char × List Char :=
      match r1 with
      | '.' :: t => (t.takeWhile Char.isDigit, t.dropWhile Char.isDigit)
      | _ => ([], r1)
    let r3 : List Char :=
      match fr.2 with
      | '%' :: t => t
      | _ => fr.2
    if r3 = [] then
      some (mkRat (natOfDigits d1 * 10 ^ fr.1.length + natOfDigits fr.1) (10 ^ fr.1.length))
    else none

/-- Python `str.strip()`: drop leading and trailing whitespace. -/
def pyStrip (cs : List Char) : List Char :=
  ((cs.dropWhile Char.isWhitespace).reverse.dropWhile Char.isWhitespace).reverse

/-- `re.match(r"^(\d+\.?\d*)%?$", s.strip())` with the matched value. -/
def reMatch (s : String) : Option ℚ :=
  reMatchChars (pyStrip s.data)

/-- Digit run and remainder. -/
def splitDigits (cs : List Char) : List Char × List Char :=
  (cs.takeWhile Char.isDigit, cs.dropWhile Char.isDigit)

/-- Optional exponent part of a Python float literal: empty, or
`(e|E) sign? digits`, consuming the whole remainder. -/
def parseExp : List Char → Option ℤ
  | [] => some 0
  | c :: t =>
    if c = 'e' ∨ c = 'E' then
      let st : ℤ × List Char :=
        match t with
        | '+' :: u => (1, u)
        | '-' :: u => (-1, u)
        | _ => (1, t)
      let ds := splitDigits st.2
      if ds.1 ≠ [] ∧ ds.2 = [] then some (st.1 * natOfDigits ds.1) else none
    else none

/-- Mantissa of a Python float literal: `digits [. digits?]` or `. digits`,
with at least one digit; returns the pair (numerator, decimal-place count)
standing for `numerator / 10 ^ places`, and the unconsumed remainder. -/
def parseMantissa (cs : List Char) : Option ((ℕ × ℕ) × List Char) :=
  let p1 := splitDigits cs
  match p1.2 with
  | '.' :: t =>
    let p2 := splitDigits t
    if p1.1 = [] ∧ p2.1 = [] then none
    else some ((natOfDigits p1.1 * 10 ^ p2.1.length + natOfDigits p2.1, p2.1.length), p2.2)
  | _ => if p1.1 = [] then none else some ((natOfDigits p1.1, 0), p1.2)

/-- Python `float(s)` on a string: strip whitespace, optional sign, then
`inf` / `infinity` / `nan` (case-insensitive) or a decimal literal with
optional exponent; raises `ValueError` otherwise. (Digit-group
underscores, accepted by Python, are not modelled.) -/
def pyFloatOfString (s : String) : Except String PVal :=
  let cs := pyStrip s.data
  let sg : Bool × List Char :=
    match cs with
    | '+' :: t => (false, t)
    | '-' :: t => (true, t)
    | _ => (false, cs)
  let low := sg.2.map Char.toLower
  if low = "inf".data ∨ low = "infinity".data then
    .ok (if sg.1 then .ninf else .inf)
  else if low = "nan".data then .ok .nan
  else
    match parseMantissa sg.2 with
    | some mr =>
      match parseExp mr.2 with
      | some e =>
        .ok (.val (mkRat ((if sg.1 then -(mr.1.1 : ℤ) else (mr.1.1 : ℤ)) * 10 ^ e.toNat)
          (10 ^ (mr.1.2 + (-e).toNat))))
      | none => .error "could not convert string to float"
    | none => .error "could not convert string to float"

/-- `convert_percentage` (main.py lines 26-34). For a string, try the
regular expression on the stripped text and return group 1 as a float;
a non-matching string falls through to `float(progress)`, which may
raise. A non-string NaN input (a missing cell is the numeric NaN in
pandas) returns 0.0; any other numeric input is returned unchanged by
`float`, and a boolean is cast to 0.0 or 1.0. -/
def convert_percentage : Cell → Except String PVal
  | .str s =>
    match reMatch s with
    | some q => .ok (.val q)
    | none => pyFloatOfString s
  | .num v => if v = .nan then .ok (.val 0) else .ok v
  | .bool b => .ok (.val (if b then 1 else 0))

example : convert_percentage (.str "4%") = .ok (.val 4) := by decide
example : convert_percentage (.str "5.5") = .ok (.val (mkRat 11 2)) := by decide
example : convert_percentage (.str "5.") = .ok (.val 5) := by decide
example : convert_percentage (.num .nan) = .ok (.val 0) := by decide
example : convert_percentage (.str "") = .error "could not convert string to float" := by decide
example : convert_percentage (.str "abc") = .error "could not convert string to float" := by decide
example : convert_percentage (.str "-5") = .ok (.val (-5)) := by decide
example : convert_percentage (.str "1e2") = .ok (.val 100) := by decide
example : convert_percentage (.str " 7 ") = .ok (.val 7) := by decide

/-- Modelled from the spec: full match of the regular expression
`^\d+(\.\d+)?%?$` that the Normalizer section of the spec states (a
fractional part, when present, must contain at least one digit). -/
def specRegexMatch (cs : List Char) : Bool :=
  let p1 := splitDigits cs
  if p1.1 = [] then false
  else
    match p1.2 with
    | '.' :: t =>
      let p2 := splitDigits t
      if p2.1 = [] then false
      else
        match p2.2 with
        | [] => true
        | ['%'] => true
        | _ => false
    | [] => true
    | ['%'] => true
    | _ => false

/-- The two required upload columns (main.py line 87). -/
def required_columns : List String := ["Sub-productNumber", "progress"]

/-- An uploaded or persisted DataFrame: its header columns and its rows. -/
structure Table where
  cols : List String
  rows : List Row
deriving DecidableEq, Repr

/-- `new_data['progress'].apply(convert_percentage)` restricted to one
row (main.py line 95): replace the progress cell by its converted value,
propagating any exception. -/
def convertRow (r : Row) : Except String Row :=
  match convert_percentage (getCol r "progress") with
  | .ok v => .ok (setCol r "progress" (.num v))
  | .error e => .error e

/-- The invalid-progress mask of main.py line 98: a converted value is
flagged when it is NaN, negative, or greater than 100. -/
def invalidP (v : PVal) : Bool :=
  decide (v = .nan) || pvalLt v (.val 0) || pvalLt (.val 100) v

/-- Numeric progress value of a row whose progress cell has been
converted; any non-numeric cell reads as NaN. -/
def progressOf (r : Row) : PVal :=
  match getCol r "progress" with
  | .num v => v
  | _ => .nan

/-- `new_data.loc[invalid_mask, 'progress'] = 0` restricted to one row
(main.py line 105). -/
def fixRow (r : Row) : Row :=
  if invalidP (progressOf r) then setCol r "progress" (.num (.val 0)) else r

/-- An upload-processing failure: the required columns are absent, or a
Python exception was caught by the outer handler; both are reported via
st.error and make process_upload return None. -/
inductive UploadError where
  | missingColumns (cols : List String)
  | exn (msg : String)
deriving DecidableEq, Repr

/-- `process_upload` (main.py lines 74-111) on an already-parsed CSV
table: check the required columns, convert the progress column, then
zero out the progress of the rows caught by the invalid mask.  Returns
the processed table together with the rows shown in the invalid-value
warning. -/
def process_upload (t : Table) : Except UploadError (Table × List Row) :=
  let missing := required_columns.filter (fun c => !(t.cols.contains c))
  if missing ≠ [] then .error (.missingColumns missing)
  else
    match t.rows.mapM convertRow with
    | .error e => .error (.exn e)
    | .ok rows =>
      let invalid := rows.filter (fun r => invalidP (progressOf r))
      .ok ({ cols := t.cols, rows := rows.map fixRow }, invalid)

/-- The rejection message f-string of main.py line 194, modelled by its
interpolated fields: the product key, the incoming progress value, and
the stored progress it failed to exceed. -/
structure WarnMsg where
  product : Cell
  newProgress : PVal
  oldProgress : PVal
deriving DecidableEq, Repr

/-- The counters and messages accumulated over one processing pass
(main.py lines 165-170). -/
structure RecResults where
  new_products : ℕ
  updated_records : ℕ
  warnings : ℕ
  warning_messages : List WarnMsg
deriving DecidableEq, Repr

/-- IEEE equality on modelled floats: `nan` is not equal to anything,
itself included. -/
def pvalEq : PVal → PVal → Bool
  | .val p, .val q => decide (p = q)
  | .inf, .inf => true
  | .ninf, .ninf => true
  | _, _ => false

/-- Python `==` on two cells, as pandas applies it elementwise in
`db["Sub-productNumber"] == product_num` (main.py line 176): strings
compare as strings, numbers as IEEE floats (a NaN cell equals nothing,
itself included), booleans compare equal to their numeric value, and a
string never equals a number. -/
def cellEq : Cell → Cell → Bool
  | .str a, .str b => decide (a = b)
  | .num v, .num w => pvalEq v w
  | .bool a, .bool b => decide (a = b)
  | .bool a, .num w => pvalEq (.val (if a then 1 else 0)) w
  | .num v, .bool b => pvalEq v (.val (if b then 1 else 0))
  | _, _ => false

/-- `row.to_dict()` of a row from `new_data.iterrows()`: the dict has
every batch column, a missing cell reading as NaN. -/
def completeRow (batchCols : List String) (r : Row) : Row :=
  batchCols.map (fun c => (c, getCol r c))

/-- Column set of the frame produced by `pd.concat` (main.py line 182):
the old frame columns followed by the new row's columns not already
present. -/
def unionCols (cols : List String) (r : Row) : List String :=
  cols ++ (r.map Prod.fst).filter (fun c => !(cols.contains c))

/-- The assignment `db.loc[index, row.index] = row` (main.py line 190)
once its labels have been resolved: for every label of `row.index` (the
batch's column list), the stored row's cell is overwritten with the
incoming row's cell under that label (NaN when the incoming cell is
missing). -/
def updateRow (stored row : Row) (batchCols : List String) : Row :=
  batchCols.foldl (fun acc c => setCol acc c (getCol row c)) stored

/-- One iteration of the row loop (main.py lines 173-196) over the
store frame: look the key up by pandas elementwise equality; when
absent, append the row marked new and extend the frame columns (pd.concat);
when present with strictly greater incoming progress, either overwrite
the batch columns and clear the new-flag, or — when `row.index` holds a
label absent from the frame — raise KeyError, since a pandas `.loc`
list indexer does not enlarge; otherwise leave the store alone and
record a rejection warning. -/
def processRow (batchCols : List String) (db : Table) (res : RecResults)
    (row : Row) : Except String (Table × RecResults) :=
  let product_num := getCol row "Sub-productNumber"
  let new_progress := progressOf row
  match db.rows.findIdx? (fun r => cellEq (getCol r "Sub-productNumber") product_num) with
  | none =>
    let new_row := setCol (completeRow batchCols row) "is_new" (.bool true)
    .ok (⟨unionCols db.cols new_row, db.rows ++ [new_row]⟩,
      { res with new_products := res.new_products + 1 })
  | some i =>
    let stored := (db.rows.get? i).getD []
    let old_progress := progressOf stored
    if pvalLt old_progress new_progress then
      if batchCols.all (fun c => db.cols.contains c) then
        let updated := setCol (updateRow stored row batchCols) "is_new" (.bool false)
        .ok (⟨db.cols, db.rows.set i updated⟩,
          { res with updated_records := res.updated_records + 1 })
      else .error "KeyError: not in index"
    else
      .ok (db, { res with
              warnings := res.warnings + 1
              warning_messages := res.warning_messages ++
                [⟨product_num, new_progress, old_progress⟩] })

/-- The row loop of main.py lines 173-196 from a given store and
accumulated results; an exception raised by a row aborts the loop. -/
def reconcileRows (batchCols : List String) :
    Table → RecResults → List Row → Except String (Table × RecResults)
  | db, res, [] => .ok (db, res)
  | db, res, row :: t =>
    match processRow batchCols db res row with
    | .error e => .error e
    | .ok p => reconcileRows batchCols p.1 p.2 t

/-- The whole row loop over the uploaded batch (main.py lines 173-196),
starting from zeroed counters. -/
def reconcile (batchCols : List String) (db : Table) (batch : List Row) :
    Except String (Table × RecResults) :=
  reconcileRows batchCols db ⟨0, 0, 0, []⟩ batch

/-- `save_db(db.drop(columns=['is_new']))` (main.py lines 50-55 and 200):
the persisted rows carry every column except the transient new-flag.
CSV text round-tripping of cell values is modelled as the identity. -/
def persistedRows (db : List Row) : List Row :=
  db.map (fun r => dropCol r "is_new")

/-- `load_db` (main.py lines 38-46): re-read the persisted rows and
convert the progress column; any exception yields the empty DataFrame. -/
def load_db (file : List Row) : List Row :=
  match file.mapM convertRow with
  | .ok rows => rows
  | .error _ => []

/-- main.py lines 122-123: when the loaded frame has no is_new column,
create it holding False on every row. -/
def initFlags (db : List Row) : List Row :=
  if db.all (fun r => (lookupCol r "is_new").isNone) then
    db.map (fun r => setCol r "is_new" (.bool false))
  else db

/-- One upload pass at store level: a failed process_upload skips the
processing block entirely (main.py line 154), leaving the store alone;
a successful one runs the reconciliation loop on the processed rows.
An exception raised inside the row loop propagates out of main before
save_db runs, so the persisted store is also unchanged in that case. -/
def uploadPass (db : Table) (t : Table) :
    Table × Option (RecResults × List Row) :=
  match process_upload t with
  | .error _ => (db, none)
  | .ok pr =>
    match reconcile pr.1.cols db pr.1.rows with
    | .error _ => (db, none)
    | .ok p => (p.1, some (p.2, pr.2))

/-- A minimal incoming row with key `A-1` and the given progress value. -/
def rowA (q : ℚ) : Row :=
  [("Sub-productNumber", .str "A-1"), ("progress", .num (.val q))]

/-- The column list of a minimal upload: exactly the required columns. -/
def baseCols : List String := ["Sub-productNumber", "progress"]

/-- The store frame main.py presents to the row loop when the database
file holds no records: the two init_db columns plus the is_new column
added at lines 122-123. -/
def emptyStore : Table :=
  ⟨["Sub-productNumber", "progress", "is_new"], []⟩

/-- A store holding the single record `A-1` at the given progress, with
the new-flag false. -/
def storeA (q : ℚ) : Table :=
  ⟨["Sub-productNumber", "progress", "is_new"],
   [rowA q ++ [("is_new", Cell.bool false)]]⟩

/-- A stored record carrying an extra column `colA` beside the key, the
progress and the new-flag. -/
def storedX : Row :=
  [("Sub-productNumber", .str "A-1"), ("progress", .num (.val 10)),
   ("colA", .str "x"), ("is_new", .bool false)]

/-- The store whose single record is `storedX`. -/
def storeX : Table :=
  ⟨["Sub-productNumber", "progress", "colA", "is_new"], [storedX]⟩

/-- An incoming row for `A-1` at progress 15 carrying a column `colB`
that no store frame above has. -/
def rowB : Row :=
  [("Sub-productNumber", .str "A-1"), ("progress", .num (.val 15)),
   ("colB", .str "y")]

/-- A sample upload: one out-of-range numeric progress and one valid
percentage string. -/
def sampleUpload : Table :=
  ⟨["Sub-productNumber", "progress"],
   [[("Sub-productNumber", .str "A-1"), ("progress", .num (.val 150))],
    [("Sub-productNumber", .str "B-2"), ("progress", .str "50%")]]⟩

example :
    reconcile baseCols emptyStore
      [[("Sub-productNumber", .str "A-1"), ("progress", .num (.val 10))],
       [("Sub-productNumber", .str "A-1"), ("progress", .num (.val 20))]] =
    .ok (⟨["Sub-productNumber", "progress", "is_new"],
      [[("Sub-productNumber", .str "A-1"), ("progress", .num (.val 20)),
        ("is_new", .bool false)]]⟩, ⟨1, 1, 0, []⟩) := by decide

section Lemmas

theorem lookupCol_append (r l : Row) (c : String) :
    lookupCol (r ++ l) c =
      match lookupCol r c with
      | some v => some v
      | none => lookupCol l c := by
  induction r with
  | nil => simp [lookupCol]
  | cons p t ih =>
    obtain ⟨a, b⟩ := p
    by_cases hac : a = c <;> simp [lookupCol, hac, ih]

theorem lookupCol_overwriteCol_self (r : Row) (c : String) (v : Cell)
    (h : (lookupCol r c).isSome = true) :
    lookupCol (overwriteCol r c v) c = some v := by
  induction r with
  | nil => simp [lookupCol] at h
  | cons p t ih =>
    obtain ⟨a, b⟩ := p
    by_cases hac : a = c
    · simp [overwriteCol, hac, lookupCol]
    · simp only [lookupCol, hac, if_false] at h
      simp only [overwriteCol, hac, if_false, lookupCol]
      exact ih h

theorem lookupCol_overwriteCol_ne (r : Row) (c : String) (v : Cell)
    (c' : String) (h : c' ≠ c) :
    lookupCol (overwriteCol r c v) c' = lookupCol r c' := by
  induction r with
  | nil => simp [overwriteCol]
  | cons p t ih =>
    obtain ⟨a, b⟩ := p
    by_cases hac : a = c
    · subst hac
      simp only [overwriteCol, if_pos rfl, lookupCol]
      rw [if_neg (fun he => h he.symm), if_neg (fun he => h he.symm)]
      exact ih
    · simp only [overwriteCol, hac, if_false, lookupCol]
      by_cases hac' : a = c'
      · simp [hac']
      · simp only [hac', if_false]
        exact ih

theorem lookupCol_none_of_not_isSome (r : Row) (c : String)
    (h : ¬ (lookupCol r c).isSome = true) : lookupCol r c = none := by
  cases he : lookupCol r c with
  | none => rfl
  | some w => rw [he] at h; simp at h

theorem lookupCol_setCol_self (r : Row) (c : String) (v : Cell) :
    lookupCol (setCol r c v) c = some v := by
  unfold setCol
  by_cases h : (lookupCol r c).isSome = true
  · rw [if_pos h]
    exact lookupCol_overwriteCol_self r c v h
  · rw [if_neg h, lookupCol_append, lookupCol_none_of_not_isSome r c h]
    simp [lookupCol]

theorem lookupCol_setCol_ne (r : Row) (c : String) (v : Cell) (c' : String)
    (h : c' ≠ c) : lookupCol (setCol r c v) c' = lookupCol r c' := by
  unfold setCol
  by_cases hs : (lookupCol r c).isSome = true
  · rw [if_pos hs]
    exact lookupCol_overwriteCol_ne r c v c' h
  · rw [if_neg hs, lookupCol_append]
    cases he : lookupCol r c' with
    | some w => rfl
    | none =>
      simp only [lookupCol]
      rw [if_neg (fun he2 => h he2.symm)]

theorem getCol_setCol_self (r : Row) (c : String) (v : Cell) :
    getCol (setCol r c v) c = v := by
  simp [getCol, lookupCol_setCol_self]

theorem getCol_setCol_ne (r : Row) (c : String) (v : Cell) (c' : String)
    (h : c' ≠ c) : getCol (setCol r c v) c' = getCol r c' := by
  simp [getCol, lookupCol_setCol_ne r c v c' h]

theorem lookupCol_dropCol_self (r : Row) (c : String) :
    lookupCol (dropCol r c) c = none := by
  induction r with
  | nil => simp [dropCol, lookupCol]
  | cons p t ih =>
    obtain ⟨a, b⟩ := p
    by_cases hac : a = c
    · simpa [dropCol, hac] using ih
    · simpa [dropCol, lookupCol, hac] using ih

theorem lookupCol_dropCol_ne (r : Row) (c : String) (c' : String)
    (h : c' ≠ c) : lookupCol (dropCol r c) c' = lookupCol r c' := by
  induction r with
  | nil => rfl
  | cons p t ih =>
    obtain ⟨a, b⟩ := p
    by_cases hac : a = c
    · subst hac
      simp only [dropCol, if_pos rfl]
      rw [show lookupCol ((a, b) :: t) c' = lookupCol t c' by
        simp only [lookupCol]
        rw [if_neg (fun he => h he.symm)]]
      exact ih
    · simp only [dropCol, hac, if_false, lookupCol]
      by_cases hac' : a = c'
      · simp [hac']
      · simp only [hac', if_false]
        exact ih

theorem processRow_not_found (batchCols : List String) (db : Table)
    (res : RecResults) (row : Row)
    (h : db.rows.findIdx?
      (fun r => cellEq (getCol r "Sub-productNumber") (getCol row "Sub-productNumber")) = none) :
    processRow batchCols db res row =
      .ok (⟨unionCols db.cols (setCol (completeRow batchCols row) "is_new" (.bool true)),
            db.rows ++ [setCol (completeRow batchCols row) "is_new" (.bool true)]⟩,
       { res with new_products := res.new_products + 1 }) := by
  simp only [processRow, h]

theorem processRow_update (batchCols : List String) (db : Table)
    (res : RecResults) (row : Row) (i : ℕ) (stored : Row)
    (hfind : db.rows.findIdx?
      (fun r => cellEq (getCol r "Sub-productNumber") (getCol row "Sub-productNumber")) = some i)
    (hget : db.rows.get? i = some stored)
    (hlt : pvalLt (progressOf stored) (progressOf row) = true)
    (hcols : batchCols.all (fun c => db.cols.contains c) = true) :
    processRow batchCols db res row =
      .ok (⟨db.cols,
            db.rows.set i (setCol (updateRow stored row batchCols) "is_new" (.bool false))⟩,
       { res with updated_records := res.updated_records + 1 }) := by
  simp only [processRow, hfind, hget, Option.getD_some, hlt, hcols, if_true]

theorem processRow_update_keyerror (batchCols : List String) (db : Table)
    (res : RecResults) (row : Row) (i : ℕ) (stored : Row)
    (hfind : db.rows.findIdx?
      (fun r => cellEq (getCol r "Sub-productNumber") (getCol row "Sub-productNumber")) = some i)
    (hget : db.rows.get? i = some stored)
    (hlt : pvalLt (progressOf stored) (progressOf row) = true)
    (hcols : batchCols.all (fun c => db.cols.contains c) = false) :
    processRow batchCols db res row = .error "KeyError: not in index" := by
  simp only [processRow, hfind, hget, Option.getD_some, hlt, hcols,
    Bool.false_eq_true, if_true, if_false]

theorem processRow_reject (batchCols : List String) (db : Table)
    (res : RecResults) (row : Row) (i : ℕ) (stored : Row)
    (hfind : db.rows.findIdx?
      (fun r => cellEq (getCol r "Sub-productNumber") (getCol row "Sub-productNumber")) = some i)
    (hget : db.rows.get? i = some stored)
    (hlt : pvalLt (progressOf stored) (progressOf row) = false) :
    processRow batchCols db res row =
      .ok (db, { res with
              warnings := res.warnings + 1
              warning_messages := res.warning_messages ++
                [⟨getCol row "Sub-productNumber", progressOf row, progressOf stored⟩] }) := by
  simp only [processRow, hfind, hget, Option.getD_some, hlt, Bool.false_eq_true,
    if_false]

theorem lookupCol_updateRow_not_mem (stored row : Row) (l : List String)
    (c : String) (h : c ∉ l) :
    lookupCol (updateRow stored row l) c = lookupCol stored c := by
  induction l generalizing stored with
  | nil => rfl
  | cons a t ih =>
    simp only [List.mem_cons, not_or] at h
    show lookupCol (updateRow (setCol stored a (getCol row a)) row t) c = _
    rw [ih (setCol stored a (getCol row a)) h.2,
      lookupCol_setCol_ne stored a (getCol row a) c h.1]

theorem lookupCol_updateRow_mem (stored row : Row) (l : List String)
    (c : String) (h : c ∈ l) :
    lookupCol (updateRow stored row l) c = some (getCol row c) := by
  induction l generalizing stored with
  | nil => exact absurd h (List.not_mem_nil c)
  | cons a t ih =>
    show lookupCol (updateRow (setCol stored a (getCol row a)) row t) c = _
    by_cases hct : c ∈ t
    · exact ih (setCol stored a (getCol row a)) hct
    · have hca : c = a := by
        rcases List.mem_cons.mp h with he | hm
        · exact he
        · exact absurd hm hct
      subst hca
      rw [lookupCol_updateRow_not_mem (setCol stored c (getCol row c)) row t c hct,
        lookupCol_setCol_self]

theorem fixRow_of_valid (r : Row) (h : invalidP (progressOf r) = false) :
    fixRow r = r := by
  unfold fixRow
  rw [h]
  simp

theorem progress_fixRow_of_invalid (r : Row) (h : invalidP (progressOf r) = true) :
    progressOf (fixRow r) = .val 0 := by
  unfold fixRow
  rw [h]
  simp only [if_true]
  unfold progressOf
  rw [getCol_setCol_self]

theorem progress_fixRow_bounds (r : Row) :
    ∃ q : ℚ, progressOf (fixRow r) = .val q ∧ 0 ≤ q ∧ q ≤ 100 := by
  by_cases h : invalidP (progressOf r) = true
  · exact ⟨0, progress_fixRow_of_invalid r h, le_refl 0, by norm_num⟩
  · have hv : invalidP (progressOf r) = false := by
      cases hb : invalidP (progressOf r) with
      | true => exact absurd hb h
      | false => rfl
    rw [fixRow_of_valid r hv]
    cases hp : progressOf r with
    | nan => rw [hp] at hv; simp [invalidP] at hv
    | inf => rw [hp] at hv; simp [invalidP, pvalLt] at hv
    | ninf => rw [hp] at hv; simp [invalidP, pvalLt] at hv
    | val q =>
      rw [hp] at hv
      simp only [invalidP, pvalLt, Bool.or_eq_false_iff, decide_eq_false_iff_not] at hv
      exact ⟨q, rfl, le_of_not_lt hv.1.2, le_of_not_lt hv.2⟩

theorem processRow_step_counts (batchCols : List String) (db : Table)
    (res : RecResults) (row : Row) (db1 : Table) (res1 : RecResults)
    (h : processRow batchCols db res row = .ok (db1, res1)) :
    res1.new_products + res1.updated_records + res1.warnings =
      res.new_products + res.updated_records + res.warnings + 1 ∧
    res1.warning_messages.length + res.warnings =
      res.warning_messages.length + res1.warnings := by
  cases hf : db.rows.findIdx?
      (fun r => cellEq (getCol r "Sub-productNumber") (getCol row "Sub-productNumber")) with
  | none =>
    rw [processRow_not_found batchCols db res row hf] at h
    injection h with h2
    obtain ⟨h3, h4⟩ := Prod.mk.injEq .. ▸ h2
    rw [← h4]
    simp
    omega
  | some i =>
    have hlen : i < db.rows.length := (List.findIdx?_eq_some_iff_findIdx_eq.mp hf).1
    obtain ⟨stored, hg⟩ : ∃ r, db.rows.get? i = some r := by
      cases hg : db.rows.get? i with
      | none =>
        rw [List.get?_eq_none] at hg
        omega
      | some r => exact ⟨r, rfl⟩
    cases hlt : pvalLt (progressOf stored) (progressOf row) with
    | true =>
      cases hcols : batchCols.all (fun c => db.cols.contains c) with
      | false =>
        rw [processRow_update_keyerror batchCols db res row i stored hf hg hlt hcols] at h
        exact Except.noConfusion h
      | true =>
        rw [processRow_update batchCols db res row i stored hf hg hlt hcols] at h
        injection h with h2
        obtain ⟨h3, h4⟩ := Prod.mk.injEq .. ▸ h2
        rw [← h4]
        simp
        omega
    | false =>
      rw [processRow_reject batchCols db res row i stored hf hg hlt] at h
      injection h with h2
      obtain ⟨h3, h4⟩ := Prod.mk.injEq .. ▸ h2
      rw [← h4]
      simp [List.length_append]
      omega

theorem reconcileRows_partition_aux (batchCols : List String) (batch : List Row) :
    ∀ (db : Table) (res : RecResults) (db' : Table) (res' : RecResults),
    reconcileRows batchCols db res batch = .ok (db', res') →
    res'.new_products + res'.updated_records + res'.warnings =
      res.new_products + res.updated_records + res.warnings + batch.length ∧
    res'.warning_messages.length + res.warnings =
      res.warning_messages.length + res'.warnings := by
  induction batch with
  | nil =>
    intro db res db' res' h
    unfold reconcileRows at h
    injection h with h2
    obtain ⟨h3, h4⟩ := Prod.mk.injEq .. ▸ h2
    rw [← h4]
    simp
  | cons row t ih =>
    intro db res db' res' h
    unfold reconcileRows at h
    cases hp : processRow batchCols db res row with
    | error e =>
      rw [hp] at h
      exact Except.noConfusion h
    | ok p =>
      rw [hp] at h
      have hstep := processRow_step_counts batchCols db res row p.1 p.2
        (by rw [hp])
      have hrec := ih p.1 p.2 db' res' h
      simp only [List.length_cons]
      omega

theorem lt_length_of_get?_eq_some {α : Type} (l : List α) (i : ℕ) (a : α)
    (h : l.get? i = some a) : i < l.length := by
  by_contra hc
  rw [List.get?_eq_none.mpr (le_of_not_lt hc)] at h
  exact Option.noConfusion h

theorem convertRow_lookup_ne (r r' : Row) (c : String) (hc : c ≠ "progress")
    (h : convertRow r = .ok r') : lookupCol r' c = lookupCol r c := by
  unfold convertRow at h
  cases hcv : convert_percentage (getCol r "progress") with
  | error e =>
    rw [hcv] at h
    exact Except.noConfusion h
  | ok v =>
    rw [hcv] at h
    injection h with h2
    rw [← h2]
    exact lookupCol_setCol_ne r "progress" (.num v) c hc

theorem mapM_convertRow_mem (l : List Row) (l' : List Row)
    (h : l.mapM convertRow = .ok l') :
    ∀ r' ∈ l', ∃ r ∈ l, convertRow r = .ok r' := by
  induction l generalizing l' with
  | nil =>
    rw [List.mapM_nil] at h
    injection h with h2
    rw [← h2]
    intro r' hr'
    exact absurd hr' (List.not_mem_nil r')
  | cons a t ih =>
    rw [List.mapM_cons] at h
    simp only [bind, Except.bind, pure, Except.pure] at h
    cases hca : convertRow a with
    | error e =>
      rw [hca] at h
      exact Except.noConfusion h
    | ok b =>
      rw [hca] at h
      cases hmt : t.mapM convertRow with
      | error e =>
        rw [hmt] at h
        exact Except.noConfusion h
      | ok bs =>
        rw [hmt] at h
        injection h with h2
        rw [← h2]
        intro r' hr'
        rcases List.mem_cons.mp hr' with he | hm
        · exact ⟨a, List.mem_cons_self a t, he ▸ hca⟩
        · obtain ⟨r, hr, hcr⟩ := ih bs hmt r' hm
          exact ⟨r, List.mem_cons_of_mem a hr, hcr⟩

theorem load_db_is_new_none (file : List Row)
    (h : ∀ r ∈ file, lookupCol r "is_new" = none) :
    ∀ r ∈ load_db file, lookupCol r "is_new" = none := by
  unfold load_db
  cases hm : file.mapM convertRow with
  | error e =>
    intro r hr
    exact absurd hr (List.not_mem_nil r)
  | ok rows =>
    intro r' hr'
    obtain ⟨r, hr, hcr⟩ := mapM_convertRow_mem file rows hm r' hr'
    rw [convertRow_lookup_ne r r' "is_new" (by decide) hcr]
    exact h r hr

theorem roundtrip_aux (db : List Row)
    (h : ∀ r ∈ db, ∃ v, lookupCol r "progress" = some (.num v) ∧ v ≠ .nan) :
    ∃ l', (persistedRows db).mapM convertRow = .ok l' ∧
      l'.map (fun r => lookupCol r "Sub-productNumber") =
        db.map (fun r => lookupCol r "Sub-productNumber") ∧
      l'.map (fun r => lookupCol r "progress") =
        db.map (fun r => lookupCol r "progress") ∧
      (∀ r ∈ l', lookupCol r "is_new" = none) := by
  induction db with
  | nil =>
    refine ⟨[], ?_, rfl, rfl, fun r hr => absurd hr (List.not_mem_nil r)⟩
    rw [show persistedRows [] = [] from rfl, List.mapM_nil]
    rfl
  | cons r t ih =>
    obtain ⟨v, hv, hvn⟩ := h r (List.mem_cons_self r t)
    obtain ⟨l', hml, hkey, hprog, hnew⟩ := ih (fun x hx => h x (List.mem_cons_of_mem r hx))
    have hdropProg : lookupCol (dropCol r "is_new") "progress" = some (.num v) := by
      rw [lookupCol_dropCol_ne r "is_new" "progress" (by decide)]
      exact hv
    have hconv : convertRow (dropCol r "is_new") =
        .ok (setCol (dropCol r "is_new") "progress" (.num v)) := by
      unfold convertRow
      rw [show getCol (dropCol r "is_new") "progress" = .num v by
        unfold getCol; rw [hdropProg]; rfl]
      rw [show convert_percentage (.num v) = .ok v by
        simp only [convert_percentage]
        rw [if_neg hvn]]
    refine ⟨setCol (dropCol r "is_new") "progress" (.num v) :: l', ?_, ?_, ?_, ?_⟩
    · rw [show persistedRows (r :: t) = dropCol r "is_new" :: persistedRows t from rfl,
        List.mapM_cons]
      simp only [bind, Except.bind, pure, Except.pure, hconv, hml]
    · simp only [List.map_cons, hkey]
      rw [lookupCol_setCol_ne _ "progress" _ "Sub-productNumber" (by decide),
        lookupCol_dropCol_ne r "is_new" "Sub-productNumber" (by decide)]
    · simp only [List.map_cons, hprog]
      rw [lookupCol_setCol_self, hv]
    · intro x hx
      rcases List.mem_cons.mp hx with he | hm
      · rw [he, lookupCol_setCol_ne _ "progress" _ "is_new" (by decide),
          lookupCol_dropCol_self]
      · exact hnew x hm

end Lemmas

/-- C1 counterexample: against a store holding `A-1` at 10 (frame
columns key, progress, is_new), the validated incoming row `{A-1, 15,
colB: y}` is found and its progress is strictly greater, yet the stored
record is not overwritten and no counter is incremented: the update
raises KeyError because `colB` is absent from the store frame, so the
claim's update half is false. -/
theorem C1_counterexample :
    (storeA 10).rows.findIdx?
      (fun r => cellEq (getCol r "Sub-productNumber") (getCol rowB "Sub-productNumber")) =
      some 0 ∧
    pvalLt (progressOf (rowA 10 ++ [("is_new", Cell.bool false)])) (progressOf rowB) = true ∧
    processRow ["Sub-productNumber", "progress", "colB"] (storeA 10) ⟨0, 0, 0, []⟩ rowB =
      .error "KeyError: not in index" := by decide

/-- C1 amended: for a row whose key is found in the store (keys compare
by pandas elementwise equality, under which NaN matches nothing):
strictly greater progress overwrites the stored record and increments
the updated counter provided every batch column already exists on the
store frame (otherwise the pass dies with KeyError); equal or lower
progress always leaves the store unchanged, appends a rejection message
carrying the key, the rejected progress and the stored progress, and
increments the rejection counter; exact equality falls in the rejection
branch. -/
theorem C1_amended_found_update_or_reject
    (batchCols : List String) (db : Table) (res : RecResults) (row : Row)
    (i : ℕ) (stored : Row) (oq nq : ℚ)
    (hfind : db.rows.findIdx?
      (fun r => cellEq (getCol r "Sub-productNumber") (getCol row "Sub-productNumber")) = some i)
    (hget : db.rows.get? i = some stored)
    (hop : progressOf stored = .val oq) (hnp : progressOf row = .val nq) :
    (oq < nq → batchCols.all (fun c => db.cols.contains c) = true →
      processRow batchCols db res row =
        .ok (⟨db.cols,
          db.rows.set i (setCol (updateRow stored row batchCols) "is_new" (.bool false))⟩,
         { res with updated_records := res.updated_records + 1 })) ∧
    (oq < nq → batchCols.all (fun c => db.cols.contains c) = false →
      processRow batchCols db res row = .error "KeyError: not in index") ∧
    (nq ≤ oq →
      processRow batchCols db res row =
        .ok (db, { res with
                warnings := res.warnings + 1
                warning_messages := res.warning_messages ++
                  [⟨getCol row "Sub-productNumber", .val nq, .val oq⟩] })) := by
  refine ⟨?_, ?_, ?_⟩
  · intro hlt hcols
    refine processRow_update batchCols db res row i stored hfind hget ?_ hcols
    rw [hop, hnp]
    simpa [pvalLt] using hlt
  · intro hlt hcols
    refine processRow_update_keyerror batchCols db res row i stored hfind hget ?_ hcols
    rw [hop, hnp]
    simpa [pvalLt] using hlt
  · intro hle
    have hres := processRow_reject batchCols db res row i stored hfind hget ?_
    · rw [hnp, hop] at hres
      exact hres
    · rw [hop, hnp]
      simp only [pvalLt, decide_eq_false_iff_not]
      exact not_lt.mpr hle

/-- C1 witness: against a store holding `A-1` at 15, an incoming 20 is
an update and an incoming 15 (exactly equal) is a rejection carrying
the key and both values. -/
theorem C1_witness :
    processRow baseCols (storeA 15) ⟨0, 0, 0, []⟩ (rowA 20) =
      .ok (⟨["Sub-productNumber", "progress", "is_new"],
        [[("Sub-productNumber", .str "A-1"), ("progress", .num (.val 20)),
          ("is_new", .bool false)]]⟩, ⟨0, 1, 0, []⟩) ∧
    processRow baseCols (storeA 15) ⟨0, 0, 0, []⟩ (rowA 15) =
      .ok (storeA 15, ⟨0, 0, 1, [⟨.str "A-1", .val 15, .val 15⟩]⟩) := by
  constructor
  · have h := C1_amended_found_update_or_reject baseCols (storeA 15) ⟨0, 0, 0, []⟩
      (rowA 20) 0 (rowA 15 ++ [("is_new", Cell.bool false)]) 15 20
      (by decide) (by decide) (by decide) (by decide)
    exact (h.1 (by norm_num) (by decide)).trans (by decide)
  · have h := C1_amended_found_update_or_reject baseCols (storeA 15) ⟨0, 0, 0, []⟩
      (rowA 15) 0 (rowA 15 ++ [("is_new", Cell.bool false)]) 15 15
      (by decide) (by decide) (by decide) (by decide)
    exact (h.2.2 (le_refl 15)).trans (by decide)

/-- C2: rows of a batch are reconciled sequentially against the same
mutable store: from an empty store, `[{A-1,10}, {A-1,20}]` first inserts
(marked new) and then updates (new-flag cleared), ending with counts
1 insert, 1 update and stored progress 20. -/
theorem C2_in_batch_sequencing :
    processRow baseCols emptyStore ⟨0, 0, 0, []⟩ (rowA 10) =
      .ok (⟨["Sub-productNumber", "progress", "is_new"],
        [[("Sub-productNumber", .str "A-1"), ("progress", .num (.val 10)),
          ("is_new", .bool true)]]⟩, ⟨1, 0, 0, []⟩) ∧
    reconcile baseCols emptyStore [rowA 10, rowA 20] =
      .ok (⟨["Sub-productNumber", "progress", "is_new"],
        [[("Sub-productNumber", .str "A-1"), ("progress", .num (.val 20)),
          ("is_new", .bool false)]]⟩, ⟨1, 1, 0, []⟩) := by decide

/-- C3 counterexample: `convert_percentage` raises `ValueError` on the
strings `abc` and the empty string instead of returning 0.0, so the
claim that it never throws and maps every invalid input to 0.0 is
false. -/
theorem C3_counterexample :
    convert_percentage (.str "abc") = .error "could not convert string to float" ∧
    convert_percentage (.str "") = .error "could not convert string to float" := by
  decide

/-- C3 amended: the quoted examples `4%`, `5.5` and missing input hold,
and numeric input never raises; but a textual input that neither
matches the pattern nor parses as a Python float literal (such as `abc`
or the empty string) raises, which `process_upload` surfaces as a
wholesale batch rejection rather than a 0.0 normalization. -/
theorem C3_amended_partial_totality :
    convert_percentage (.str "4%") = .ok (.val 4) ∧
    convert_percentage (.str "5.5") = .ok (.val (11 / 2)) ∧
    convert_percentage (.str "") = .error "could not convert string to float" ∧
    convert_percentage (.str "abc") = .error "could not convert string to float" ∧
    convert_percentage (.num .nan) = .ok (.val 0) ∧
    (∀ v : PVal, ∃ r : PVal, convert_percentage (.num v) = .ok r) ∧
    process_upload ⟨["Sub-productNumber", "progress"],
      [[("Sub-productNumber", .str "X"), ("progress", .str "abc")]]⟩ =
      .error (.exn "could not convert string to float") := by
  refine ⟨by decide, ?_, by decide, by decide, by decide, ?_, by decide⟩
  · rw [show (11 : ℚ) / 2 = mkRat 11 2 by
      rw [Rat.mkRat_eq_divInt, Rat.divInt_eq_div]; norm_num]
    decide
  · intro v
    cases v with
    | nan => exact ⟨.val 0, by decide⟩
    | inf => exact ⟨.inf, by decide⟩
    | ninf => exact ⟨.ninf, by decide⟩
    | val q => exact ⟨.val q, by simp [convert_percentage]⟩

/-- C4 counterexample: the stripped text `5.` does not match the
spec's regular expression `^\d+(\.\d+)?%?$`, so by the claim it should
normalize to 0.0; the code parses it to 5.0. -/
theorem C4_counterexample :
    specRegexMatch (pyStrip "5.".data) = false ∧
    convert_percentage (.str "5.") = .ok (.val 5) := by decide

/-- C4 amended: a textual input parses to the decimal value of the
match exactly against the code's regular expression `^(\d+\.?\d*)%?$`
on the stripped text; a non-matching string is handed to Python
`float()` on the raw text (which may parse further forms or raise)
instead of normalizing to 0.0; already-numeric non-NaN input is
returned as-is, including out-of-range values. -/
theorem C4_amended_normalizer_cases :
    (∀ s : String, ∀ q : ℚ, reMatchChars (pyStrip s.data) = some q →
      convert_percentage (.str s) = .ok (.val q)) ∧
    (∀ s : String, reMatchChars (pyStrip s.data) = none →
      convert_percentage (.str s) = pyFloatOfString s) ∧
    (∀ v : PVal, v ≠ .nan → convert_percentage (.num v) = .ok v) := by
  refine ⟨?_, ?_, ?_⟩
  · intro s q h
    simp [convert_percentage, reMatch, h]
  · intro s h
    simp [convert_percentage, reMatch, h]
  · intro v hv
    simp [convert_percentage, hv]

/-- C4 witness: the amended cases applied at `4%` (a regex match), `x`
(fallback to `float()`) and the out-of-range numeric 150. -/
theorem C4_witness :
    convert_percentage (.str "4%") = .ok (.val 4) ∧
    convert_percentage (.str "x") = pyFloatOfString "x" ∧
    convert_percentage (.num (.val 150)) = .ok (.val 150) :=
  ⟨C4_amended_normalizer_cases.1 "4%" 4 (by decide),
   C4_amended_normalizer_cases.2.1 "x" (by decide),
   C4_amended_normalizer_cases.2.2 (.val 150) (by decide)⟩

/-- C5: after per-row conversion, a value is flagged invalid exactly
when it is NaN, negative or above 100; flagged rows are reported and
force-set to 0.0, unflagged rows pass through unchanged, and every row
reaching reconciliation carries a progress in [0, 100]; 0 and 100
themselves are valid and unflagged. -/
theorem C5_range_validation (t : Table) (t' : Table) (invalid : List Row)
    (h : process_upload t = .ok (t', invalid)) :
    (∀ r ∈ t'.rows, ∃ q : ℚ, progressOf r = .val q ∧ 0 ≤ q ∧ q ≤ 100) ∧
    (∃ rows0, t.rows.mapM convertRow = .ok rows0 ∧
      t'.rows = rows0.map fixRow ∧
      invalid = rows0.filter (fun r => invalidP (progressOf r)) ∧
      (∀ r ∈ rows0, invalidP (progressOf r) = true →
        progressOf (fixRow r) = .val 0) ∧
      (∀ r ∈ rows0, invalidP (progressOf r) = false → fixRow r = r)) ∧
    invalidP (.val 150) = true ∧ invalidP (.val (-5)) = true ∧
    invalidP (.val 0) = false ∧ invalidP (.val 100) = false ∧
    (∀ v : PVal, invalidP v =
      (decide (v = .nan) || pvalLt v (.val 0) || pvalLt (.val 100) v)) := by
  simp only [process_upload] at h
  split at h
  · exact Except.noConfusion h
  · split at h
    · exact Except.noConfusion h
    · rename_i rows hrows
      injection h with h2
      obtain ⟨h3, h4⟩ := Prod.mk.injEq .. ▸ h2
      refine ⟨?_, ⟨rows, hrows, ?_, h4.symm,
          fun r _ hr => progress_fixRow_of_invalid r hr,
          fun r _ hr => fixRow_of_valid r hr⟩,
        by decide, by decide, by decide, by decide, fun v => rfl⟩
      · intro r hr
        rw [← h3] at hr
        simp only [List.mem_map] at hr
        obtain ⟨r0, _, hr0⟩ := hr
        rw [← hr0]
        exact progress_fixRow_bounds r0
      · rw [← h3]

/-- C5 witness: in the sample upload the out-of-range 150 is flagged,
and the row it produced reaches reconciliation with progress 0, which
is in range. -/
theorem C5_witness :
    invalidP (.val 150) = true ∧
    (∃ q : ℚ,
      progressOf [("Sub-productNumber", Cell.str "A-1"),
        ("progress", Cell.num (.val 0))] = .val q ∧ 0 ≤ q ∧ q ≤ 100) := by
  have h := C5_range_validation sampleUpload
    ⟨["Sub-productNumber", "progress"],
     [[("Sub-productNumber", .str "A-1"), ("progress", .num (.val 0))],
      [("Sub-productNumber", .str "B-2"), ("progress", .num (.val 50))]]⟩
    [[("Sub-productNumber", .str "A-1"), ("progress", .num (.val 150))]]
    (by decide)
  exact ⟨h.2.2.1, h.1 _ (by decide)⟩

/-- C7 counterexample: updating the record `storedX` (which carries an
extra column `colA`) with an incoming batch shaped `{key, progress}`
runs the update branch, yet `colA` survives on the stored record with
its old value, so the stored record's final shape is not the incoming
row's column set. -/
theorem C7_counterexample :
    processRow baseCols storeX ⟨0, 0, 0, []⟩ (rowA 15) =
      .ok (⟨["Sub-productNumber", "progress", "colA", "is_new"],
        [[("Sub-productNumber", .str "A-1"), ("progress", .num (.val 15)),
          ("colA", .str "x"), ("is_new", .bool false)]]⟩, ⟨0, 1, 0, []⟩) ∧
    lookupCol [("Sub-productNumber", .str "A-1"), ("progress", .num (.val 15)),
        ("colA", .str "x"), ("is_new", .bool false)] "colA" =
      some (.str "x") := by decide

/-- C7 amended: a strict-greater update only completes when every batch
column already exists on the store frame (a pandas `.loc` list indexer
raises KeyError otherwise, so the frame never gains columns on an
update); when it completes, every batch column of the incoming row
overwrites the stored record's corresponding cell, the new-flag is
cleared, and stored columns outside the batch's column set keep their
old values rather than being dropped. -/
theorem C7_amended_update_within_frame
    (batchCols : List String) (db : Table) (res : RecResults) (row : Row)
    (i : ℕ) (stored : Row)
    (hfind : db.rows.findIdx?
      (fun r => cellEq (getCol r "Sub-productNumber") (getCol row "Sub-productNumber")) = some i)
    (hget : db.rows.get? i = some stored)
    (hlt : pvalLt (progressOf stored) (progressOf row) = true)
    (hcols : batchCols.all (fun c => db.cols.contains c) = true) :
    ∃ db', processRow batchCols db res row =
        .ok (db', { res with updated_records := res.updated_records + 1 }) ∧
      db'.cols = db.cols ∧
      ∃ r', db'.rows.get? i = some r' ∧
        (∀ c ∈ batchCols, c ≠ "is_new" → lookupCol r' c = some (getCol row c)) ∧
        (∀ c, c ∉ batchCols → c ≠ "is_new" → lookupCol r' c = lookupCol stored c) ∧
        lookupCol r' "is_new" = some (.bool false) := by
  rw [processRow_update batchCols db res row i stored hfind hget hlt hcols]
  refine ⟨_, rfl, rfl,
    setCol (updateRow stored row batchCols) "is_new" (.bool false), ?_, ?_, ?_, ?_⟩
  · simp only [List.get?_eq_getElem?]
    exact List.getElem?_set_eq_of_lt _ (lt_length_of_get?_eq_some db.rows i stored hget)
  · intro c hc hne
    rw [lookupCol_setCol_ne _ _ _ c hne]
    exact lookupCol_updateRow_mem stored row batchCols c hc
  · intro c hc hne
    rw [lookupCol_setCol_ne _ _ _ c hne]
    exact lookupCol_updateRow_not_mem stored row batchCols c hc
  · exact lookupCol_setCol_self _ _ _

/-- C7 witness: the amended update applied to `storedX` and an incoming
`{A-1, 15}` batch of shape `{key, progress}`: progress is overwritten,
`colA` survives with its old value, and the new-flag is cleared. -/
theorem C7_witness :
    ∃ db', processRow baseCols storeX ⟨0, 0, 0, []⟩ (rowA 15) =
        .ok (db', ⟨0, 1, 0, []⟩) ∧
      ∃ r', db'.rows.get? 0 = some r' ∧
        lookupCol r' "progress" = some (.num (.val 15)) ∧
        lookupCol r' "colA" = some (.str "x") ∧
        lookupCol r' "is_new" = some (.bool false) := by
  obtain ⟨db', hdb, hcols, r', hr, h1, h2, h3⟩ := C7_amended_update_within_frame
    baseCols storeX ⟨0, 0, 0, []⟩ (rowA 15) 0 storedX
    (by decide) (by decide) (by decide) (by decide)
  refine ⟨db', hdb, r', hr, ?_, ?_, h3⟩
  · rw [h1 "progress" (by decide) (by decide)]
    decide
  · rw [h2 "colA" (by decide) (by decide)]
    decide

/-- C8: a batch lacking a required column is rejected wholesale with a
single missing-columns error naming exactly the absent required
columns, and the store is not mutated at all. -/
theorem C8_missing_columns_reject (t : Table) (db : Table)
    (h : ∃ c ∈ required_columns, c ∉ t.cols) :
    ∃ missing, process_upload t = .error (.missingColumns missing) ∧
      missing ≠ [] ∧
      (∀ c, c ∈ missing ↔ c ∈ required_columns ∧ c ∉ t.cols) ∧
      uploadPass db t = (db, none) := by
  have hmem : ∀ c, c ∈ required_columns.filter (fun c => !(t.cols.contains c)) ↔
      c ∈ required_columns ∧ c ∉ t.cols := by
    intro c
    simp [List.mem_filter, List.elem_iff, List.contains]
  have hne : required_columns.filter (fun c => !(t.cols.contains c)) ≠ [] := by
    obtain ⟨c, hc1, hc2⟩ := h
    intro hnil
    have := (hmem c).mpr ⟨hc1, hc2⟩
    rw [hnil] at this
    exact List.not_mem_nil c this
  have hproc : process_upload t =
      .error (.missingColumns (required_columns.filter (fun c => !(t.cols.contains c)))) := by
    simp only [process_upload]
    rw [if_pos hne]
  refine ⟨_, hproc, hne, hmem, ?_⟩
  simp only [uploadPass, hproc]

/-- C8 witness: a batch with no progress column leaves a nonempty store
untouched and produces no result. -/
theorem C8_witness :
    uploadPass (storeA 10) ⟨["Sub-productNumber"], []⟩ = (storeA 10, none) := by
  obtain ⟨missing, h1, hne, hch, hpass⟩ :=
    C8_missing_columns_reject ⟨["Sub-productNumber"], []⟩ (storeA 10)
      ⟨"progress", by decide, by decide⟩
  exact hpass

/-- C10 counterexample: the validated one-row batch `{A-1, 15, colB:y}`
against a store holding `A-1` at 10 aborts the loop with KeyError, so
the pass ends with no counts at all and the claimed partition
`new + updated + rejected = 1` fails for this batch. -/
theorem C10_counterexample :
    reconcile ["Sub-productNumber", "progress", "colB"] (storeA 10) [rowB] =
      .error "KeyError: not in index" := by decide

/-- C10 amended: whenever the row loop completes without raising, every
processed row took exactly one of the three branches, so the final
counters sum to the batch length and the rejection messages are as many
as the rejections; a KeyError raised by an update row aborts the pass
with no counts. -/
theorem C10_amended_branch_partition (batchCols : List String) (db : Table)
    (batch : List Row) (db' : Table) (res : RecResults)
    (h : reconcile batchCols db batch = .ok (db', res)) :
    res.new_products + res.updated_records + res.warnings = batch.length ∧
    res.warning_messages.length = res.warnings := by
  have haux := reconcileRows_partition_aux batchCols batch db ⟨0, 0, 0, []⟩ db' res h
  simp at haux
  omega

/-- C10 witness: the completing two-row batch of the in-batch
sequencing example has counts 1/1/0 summing to its length 2, with no
rejection messages. -/
theorem C10_witness :
    (⟨1, 1, 0, []⟩ : RecResults).new_products +
      (⟨1, 1, 0, []⟩ : RecResults).updated_records +
      (⟨1, 1, 0, []⟩ : RecResults).warnings =
      ([rowA 10, rowA 20] : List Row).length ∧
    (⟨1, 1, 0, []⟩ : RecResults).warning_messages.length =
      (⟨1, 1, 0, []⟩ : RecResults).warnings :=
  C10_amended_branch_partition baseCols emptyStore [rowA 10, rowA 20]
    ⟨["Sub-productNumber", "progress", "is_new"],
      [[("Sub-productNumber", .str "A-1"), ("progress", .num (.val 20)),
        ("is_new", .bool false)]]⟩
    ⟨1, 1, 0, []⟩ (by decide)

/-- C6: the new-flag lifecycle is one-way: every record of a store
loaded from a persisted file (which never carries the flag) starts with
the flag false; an insert creates the appended record with the flag
true; an update rewrites the record with the flag false; and no step
ever moves the flag of an already-stored record to a value other than
its old one or false, so no stored record goes back to new. -/
theorem C6_new_flag_lifecycle :
    (∀ file : List Row, (∀ r ∈ file, lookupCol r "is_new" = none) →
      ∀ r ∈ initFlags (load_db file), lookupCol r "is_new" = some (.bool false)) ∧
    (∀ (batchCols : List String) (db : Table) (res : RecResults) (row : Row),
      db.rows.findIdx? (fun r =>
        cellEq (getCol r "Sub-productNumber") (getCol row "Sub-productNumber")) = none →
      processRow batchCols db res row =
        .ok (⟨unionCols db.cols (setCol (completeRow batchCols row) "is_new" (.bool true)),
              db.rows ++ [setCol (completeRow batchCols row) "is_new" (.bool true)]⟩,
          { res with new_products := res.new_products + 1 }) ∧
      lookupCol (setCol (completeRow batchCols row) "is_new" (.bool true)) "is_new" =
        some (.bool true)) ∧
    (∀ (batchCols : List String) (db : Table) (res : RecResults) (row : Row)
      (i : ℕ) (stored : Row),
      db.rows.findIdx? (fun r =>
        cellEq (getCol r "Sub-productNumber") (getCol row "Sub-productNumber")) = some i →
      db.rows.get? i = some stored →
      pvalLt (progressOf stored) (progressOf row) = true →
      batchCols.all (fun c => db.cols.contains c) = true →
      ∃ db' r', processRow batchCols db res row =
          .ok (db', { res with updated_records := res.updated_records + 1 }) ∧
        db'.rows.get? i = some r' ∧
        lookupCol r' "is_new" = some (.bool false)) ∧
    (∀ (batchCols : List String) (db : Table) (res : RecResults) (row : Row)
      (db' : Table) (res' : RecResults),
      processRow batchCols db res row = .ok (db', res') →
      ∀ (i : ℕ) (r0 : Row), db.rows.get? i = some r0 →
      ∀ r1, db'.rows.get? i = some r1 →
        lookupCol r1 "is_new" = lookupCol r0 "is_new" ∨
        lookupCol r1 "is_new" = some (.bool false)) := by
  refine ⟨?_, ?_, ?_, ?_⟩
  · intro file hf r hr
    have hall : (load_db file).all (fun r => (lookupCol r "is_new").isNone) = true := by
      rw [List.all_eq_true]
      intro r0 hr0
      rw [load_db_is_new_none file hf r0 hr0]
      rfl
    rw [initFlags, if_pos hall] at hr
    simp only [List.mem_map] at hr
    obtain ⟨r0, _, hr0⟩ := hr
    rw [← hr0]
    exact lookupCol_setCol_self r0 "is_new" (.bool false)
  · intro batchCols db res row hfind
    rw [processRow_not_found batchCols db res row hfind]
    exact ⟨rfl, lookupCol_setCol_self (completeRow batchCols row) "is_new" (.bool true)⟩
  · intro batchCols db res row i stored hfind hget hlt hcols
    rw [processRow_update batchCols db res row i stored hfind hget hlt hcols]
    refine ⟨_, setCol (updateRow stored row batchCols) "is_new" (.bool false),
      rfl, ?_, lookupCol_setCol_self _ "is_new" (.bool false)⟩
    simp only [List.get?_eq_getElem?]
    exact List.getElem?_set_eq_of_lt _ (lt_length_of_get?_eq_some db.rows i stored hget)
  · intro batchCols db res row db' res' h i r0 hr0 r1 hr1
    have hlen : i < db.rows.length := lt_length_of_get?_eq_some db.rows i r0 hr0
    cases hf : db.rows.findIdx? (fun r =>
        cellEq (getCol r "Sub-productNumber") (getCol row "Sub-productNumber")) with
    | none =>
      rw [processRow_not_found batchCols db res row hf] at h
      injection h with h2
      obtain ⟨h3, h4⟩ := Prod.mk.injEq .. ▸ h2
      have hrows : db'.rows = db.rows ++
          [setCol (completeRow batchCols row) "is_new" (.bool true)] := by
        rw [← h3]
      rw [hrows] at hr1
      simp only [List.get?_eq_getElem?] at hr1
      rw [List.getElem?_append_left hlen, ← List.get?_eq_getElem?, hr0] at hr1
      injection hr1 with h5
      rw [← h5]
      exact Or.inl rfl
    | some j =>
      have hjlen : j < db.rows.length := (List.findIdx?_eq_some_iff_findIdx_eq.mp hf).1
      obtain ⟨stored, hg⟩ : ∃ r, db.rows.get? j = some r := by
        cases hg : db.rows.get? j with
        | none =>
          rw [List.get?_eq_none] at hg
          omega
        | some r => exact ⟨r, rfl⟩
      cases hlt : pvalLt (progressOf stored) (progressOf row) with
      | true =>
        cases hcols : batchCols.all (fun c => db.cols.contains c) with
        | false =>
          rw [processRow_update_keyerror batchCols db res row j stored hf hg hlt hcols] at h
          exact Except.noConfusion h
        | true =>
          rw [processRow_update batchCols db res row j stored hf hg hlt hcols] at h
          injection h with h2
          obtain ⟨h3, h4⟩ := Prod.mk.injEq .. ▸ h2
          have hrows : db'.rows = db.rows.set j
              (setCol (updateRow stored row batchCols) "is_new" (.bool false)) := by
            rw [← h3]
          rw [hrows] at hr1
          simp only [List.get?_eq_getElem?] at hr1
          by_cases hij : i = j
          · subst hij
            rw [List.getElem?_set_eq_of_lt _ hlen] at hr1
            injection hr1 with h5
            rw [← h5]
            exact Or.inr (lookupCol_setCol_self _ "is_new" (.bool false))
          · rw [List.getElem?_set_ne (fun he => hij he.symm)] at hr1
            rw [← List.get?_eq_getElem?, hr0] at hr1
            injection hr1 with h5
            rw [← h5]
            exact Or.inl rfl
      | false =>
        rw [processRow_reject batchCols db res row j stored hf hg hlt] at h
        injection h with h2
        obtain ⟨h3, h4⟩ := Prod.mk.injEq .. ▸ h2
        have hrows : db'.rows = db.rows := by
          rw [← h3]
        rw [hrows, hr0] at hr1
        injection hr1 with h5
        rw [← h5]
        exact Or.inl rfl

/-- C6 witness: reloading a one-record file yields the flag false; an
insert into the empty store carries the flag true; and updating `A-1`
from 15 to 20 clears it. -/
theorem C6_witness :
    (∀ r ∈ initFlags (load_db [rowA 15]), lookupCol r "is_new" = some (.bool false)) ∧
    lookupCol (setCol (completeRow baseCols (rowA 10)) "is_new" (.bool true)) "is_new" =
      some (.bool true) ∧
    (∃ db' r', processRow baseCols (storeA 15) ⟨0, 0, 0, []⟩ (rowA 20) =
        .ok (db', ⟨0, 1, 0, []⟩) ∧
      db'.rows.get? 0 = some r' ∧
      lookupCol r' "is_new" = some (.bool false)) := by
  refine ⟨?_, ?_, ?_⟩
  · exact C6_new_flag_lifecycle.1 [rowA 15] (by decide)
  · exact (C6_new_flag_lifecycle.2.1 baseCols emptyStore ⟨0, 0, 0, []⟩ (rowA 10)
      (by decide)).2
  · exact C6_new_flag_lifecycle.2.2.1 baseCols (storeA 15) ⟨0, 0, 0, []⟩ (rowA 20)
      0 (rowA 15 ++ [("is_new", Cell.bool false)])
      (by decide) (by decide) (by decide) (by decide)

/-- C9: persisting a store drops the new-flag column entirely, and
reloading the persisted rows yields a store with the same keys and the
same progress values, every record carrying the flag false. -/
theorem C9_round_trip (db : List Row)
    (h : ∀ r ∈ db, ∃ v, lookupCol r "progress" = some (.num v) ∧ v ≠ .nan) :
    (∀ r ∈ persistedRows db, lookupCol r "is_new" = none) ∧
    (initFlags (load_db (persistedRows db))).map
        (fun r => lookupCol r "Sub-productNumber") =
      db.map (fun r => lookupCol r "Sub-productNumber") ∧
    (initFlags (load_db (persistedRows db))).map (fun r => lookupCol r "progress") =
      db.map (fun r => lookupCol r "progress") ∧
    (∀ r ∈ initFlags (load_db (persistedRows db)),
      lookupCol r "is_new" = some (.bool false)) := by
  obtain ⟨l', hml, hkey, hprog, hnew⟩ := roundtrip_aux db h
  have hload : load_db (persistedRows db) = l' := by
    unfold load_db
    rw [hml]
  have hpers : ∀ r ∈ persistedRows db, lookupCol r "is_new" = none := by
    intro r hr
    simp only [persistedRows, List.mem_map] at hr
    obtain ⟨r0, _, hr0⟩ := hr
    rw [← hr0]
    exact lookupCol_dropCol_self r0 "is_new"
  have hall : l'.all (fun r => (lookupCol r "is_new").isNone) = true := by
    rw [List.all_eq_true]
    intro r0 hr0
    rw [hnew r0 hr0]
    rfl
  have hinit : initFlags (load_db (persistedRows db)) =
      l'.map (fun r => setCol r "is_new" (.bool false)) := by
    rw [hload, initFlags, if_pos hall]
  refine ⟨hpers, ?_, ?_, ?_⟩
  · rw [hinit, ← hkey, List.map_map]
    apply List.map_congr_left
    intro r _
    exact lookupCol_setCol_ne r "is_new" (.bool false) "Sub-productNumber" (by decide)
  · rw [hinit, ← hprog, List.map_map]
    apply List.map_congr_left
    intro r _
    exact lookupCol_setCol_ne r "is_new" (.bool false) "progress" (by decide)
  · rw [hinit]
    intro r hr
    simp only [List.mem_map] at hr
    obtain ⟨r0, _, hr0⟩ := hr
    rw [← hr0]
    exact lookupCol_setCol_self r0 "is_new" (.bool false)

/-- C9 witness: a one-record store with progress 15 and the flag true
round-trips to the same key and progress with the flag reset to
false. -/
theorem C9_witness :
    (initFlags (load_db (persistedRows [rowA 15 ++ [("is_new", Cell.bool true)]]))).map
        (fun r => lookupCol r "Sub-productNumber") =
      [rowA 15 ++ [("is_new", Cell.bool true)]].map
        (fun r => lookupCol r "Sub-productNumber") ∧
    (initFlags (load_db (persistedRows [rowA 15 ++ [("is_new", Cell.bool true)]]))).map
        (fun r => lookupCol r "progress") =
      [rowA 15 ++ [("is_new", Cell.bool true)]].map (fun r => lookupCol r "progress") ∧
    (∀ r ∈ initFlags (load_db (persistedRows [rowA 15 ++ [("is_new", Cell.bool true)]])),
      lookupCol r "is_new" = some (.bool false)) := by
  have h := C9_round_trip [rowA 15 ++ [("is_new", Cell.bool true)]] (by
    intro r hr
    simp only [List.mem_singleton] at hr
    subst hr
    exact ⟨.val 15, by decide, by decide⟩)
  exact ⟨h.2.1, h.2.2.1, h.2.2.2⟩

end DBCheck
